import Mathlib

/-!
A verification development for the Bitcoin address tracker: the data model,
repository operations, upstream-client classification and service layer are
embedded as pure Lean functions, and the specified properties of the
synchronization-and-balance-derivation engine are proved about them.

Modelling conventions: timestamps are `Nat`; satoshi amounts are `Int`;
the satoshi-to-BTC scaling is modelled as exact division in `ℚ`; the SQLite
database is a pair of lists (the `addresses` and `transactions` relations);
SQL row ids are omitted (assigned by storage, no logical content); fallible
operations return `Except String`.
-/

namespace BitcoinTracker

/-- Raw ledger event decoded from the upstream provider
(`BlockchairTransaction`): block association, transaction hash, timestamp and
the signed balance change for the queried address. -/
structure RawEvent where
  blockId : Int
  hash : String
  time : Nat
  balanceChange : Int
  deriving DecidableEq

/-- `models.Transaction`: one stored ledger record. -/
structure Transaction where
  hash : String
  address : String
  amount : Int
  confirmations : Int
  blockHeight : Int
  timestamp : Nat
  txType : String
  deriving DecidableEq

/-- `models.Address`: a tracked address row. -/
structure Address where
  address : String
  label : String
  createdAt : Nat
  lastSynced : Option Nat
  deriving DecidableEq

/-- `models.Balance`: the derived balance of one address. -/
structure Balance where
  address : String
  confirmedBalance : Int
  unconfirmedBalance : Int
  totalBalance : Int
  balanceBTC : ℚ
  deriving DecidableEq

/-- The database state: the `addresses` and `transactions` relations created by
`SQLiteRepository.createTables`. -/
structure DB where
  addresses : List Address
  transactions : List Transaction
  deriving DecidableEq

/-- Does a stored record match the dedup key `(hash, address)`? -/
def keyMatches (r : Transaction) (h a : String) : Bool :=
  r.hash == h && r.address == a

/-- `SQLiteRepository.SaveTransaction`: `INSERT OR REPLACE INTO transactions`;
under the `UNIQUE(hash, address)` constraint any row with the same dedup key is
replaced by the new row. -/
def saveTransaction (db : DB) (tx : Transaction) : DB :=
  { db with transactions :=
      db.transactions.filter (fun r => !(keyMatches r tx.hash tx.address)) ++ [tx] }

/-- `SQLiteRepository.TransactionExists`: `SELECT COUNT(*) ... > 0`. -/
def transactionExists (db : DB) (h a : String) : Bool :=
  db.transactions.any (fun r => keyMatches r h a)

/-- `SQLiteRepository.GetAddress`: the row with the given address, if any. -/
def getAddress (db : DB) (address : String) : Option Address :=
  db.addresses.find? (fun a => a.address == address)

/-- Is the address present in the `addresses` relation? -/
def tracked (db : DB) (address : String) : Bool :=
  db.addresses.any (fun a => a.address == address)

/-- `SQLiteRepository.RemoveAddress`: `DELETE FROM addresses WHERE address = ?`;
an error when no row was affected.  The schema declares
`FOREIGN KEY(address) ... ON DELETE CASCADE`, but the program never enables
SQLite foreign-key enforcement (the connection is opened with a plain path,
no `PRAGMA foreign_keys` and no DSN option anywhere), so the cascade is inert
at runtime: only the address row is deleted and the dependent `transactions`
rows survive. -/
def removeAddress (db : DB) (address : String) : Except String DB :=
  if tracked db address then
    .ok { db with addresses := db.addresses.filter (fun a => !(a.address == address)) }
  else
    .error ("address not found: " ++ address)

/-- `SQLiteRepository.UpdateLastSynced`:
`UPDATE addresses SET last_synced = ? WHERE address = ?` (a no-op when the
address is absent). -/
def updateLastSynced (db : DB) (address : String) (t : Nat) : DB :=
  { db with addresses :=
      db.addresses.map (fun a =>
        if a.address == address then { a with lastSynced := some t } else a) }

/-- The confirmed aggregate of `SQLiteRepository.CalculateBalance`:
`SELECT COALESCE(SUM(amount), 0) ... WHERE address = ? AND confirmations >= 1`. -/
def confirmedSum (db : DB) (address : String) : Int :=
  ((db.transactions.filter
      (fun t => t.address == address && decide (1 ≤ t.confirmations))).map
    Transaction.amount).sum

/-- The unconfirmed aggregate of `SQLiteRepository.CalculateBalance`:
`SELECT COALESCE(SUM(amount), 0) ... WHERE address = ? AND confirmations = 0`. -/
def unconfirmedSum (db : DB) (address : String) : Int :=
  ((db.transactions.filter
      (fun t => t.address == address && t.confirmations == 0)).map
    Transaction.amount).sum

/-- `SQLiteRepository.CalculateBalance`: the two aggregate sums, their total and
the satoshi-to-BTC scaling `float64(totalBalance) / 100000000`, modelled as
exact division. -/
def calculateBalance (db : DB) (address : String) : Balance :=
  { address := address
    confirmedBalance := confirmedSum db address
    unconfirmedBalance := unconfirmedSum db address
    totalBalance := confirmedSum db address + unconfirmedSum db address
    balanceBTC := ((confirmedSum db address + unconfirmedSum db address : Int) : ℚ) / 100000000 }

/-- Timestamp-descending order on records (`ORDER BY timestamp DESC`). -/
def tsDesc (a b : Transaction) : Prop := b.timestamp ≤ a.timestamp

instance : DecidableRel tsDesc := fun a b => Nat.decLe b.timestamp a.timestamp

instance : IsTotal Transaction tsDesc := ⟨fun a b => Nat.le_total b.timestamp a.timestamp⟩

instance : IsTrans Transaction tsDesc := ⟨fun _ _ _ hab hbc => Nat.le_trans hbc hab⟩

/-- `SQLiteRepository.GetTransactionsByAddress`:
`SELECT ... WHERE address = ? ORDER BY timestamp DESC LIMIT ? OFFSET ?`.
Per SQLite semantics a negative `OFFSET` behaves as 0 and a negative `LIMIT`
means no limit. -/
def getTransactionsByAddress (db : DB) (address : String) (limit offset : Int) :
    List Transaction :=
  let sorted := List.insertionSort tsDesc
    (db.transactions.filter (fun t => t.address == address))
  let page := sorted.drop (max offset 0).toNat
  if limit < 0 then page else page.take limit.toNat

/-- `BlockchairClient.GetTransactions` per-event conversion: direction from the
sign of the balance change, confirmation count 0 for an event with no block
association and the fixed sentinel 6 otherwise. -/
def classifyEvent (address : String) (e : RawEvent) : Transaction :=
  { hash := e.hash
    address := address
    amount := e.balanceChange
    confirmations := if e.blockId = 0 then 0 else 6
    blockHeight := e.blockId
    timestamp := e.time
    txType := if e.balanceChange < 0 then "sent" else "received" }

/-- One iteration of the save loop of `BitcoinService.SyncAddress`: skip the
record when its `(hash, address)` pair already exists, save it otherwise. -/
def syncStep (address : String) (db : DB) (tx : Transaction) : DB :=
  if transactionExists db tx.hash address then db else saveTransaction db tx

/-- The save loop of `BitcoinService.SyncAddress` over the fetched records. -/
def syncTransactions (address : String) (db : DB) (txs : List Transaction) : DB :=
  txs.foldl (syncStep address) db

/-- `BitcoinService.SyncAddress`: guard that the address is tracked, fetch (the
adapter outcome is the `fetch` argument, already decoded into raw events), save
the new records, then unconditionally advance the watermark to `now`. -/
def syncAddress (db : DB) (address : String)
    (fetch : Except String (List RawEvent)) (now : Nat) : Except String DB :=
  match getAddress db address with
  | none => .error ("address not being tracked: " ++ address)
  | some _ =>
    match fetch with
    | .error e => .error ("failed to fetch transactions from API: " ++ e)
    | .ok events =>
      .ok (updateLastSynced
            (syncTransactions address db (events.map (classifyEvent address)))
            address now)

/-- The database state after a `SyncAddress` call: a failed sync leaves the
state untouched. -/
def applySync (db : DB) (address : String)
    (fetch : Except String (List RawEvent)) (now : Nat) : DB :=
  match syncAddress db address fetch now with
  | .ok db2 => db2
  | .error _ => db

/-- Creation-time-descending order on addresses (`ORDER BY created_at DESC`). -/
def createdDesc (a b : Address) : Prop := b.createdAt ≤ a.createdAt

instance : DecidableRel createdDesc := fun a b => Nat.decLe b.createdAt a.createdAt

/-- `SQLiteRepository.GetAllAddresses`:
`SELECT ... FROM addresses ORDER BY created_at DESC`. -/
def getAllAddresses (db : DB) : List Address :=
  List.insertionSort createdDesc db.addresses

/-- Was the adapter fetch successful? -/
def fetchOk (r : Except String (List RawEvent)) : Bool :=
  match r with
  | .ok _ => true
  | .error _ => false

/-- The loop of `BitcoinService.SyncAllAddresses`: sync each address in turn,
keeping the running failure count; a failed address leaves the state untouched
and the loop continues with the remaining addresses. -/
def syncAllGo (fetch : String → Except String (List RawEvent)) (now : Nat) :
    List Address → DB → Nat → DB × Nat
  | [], db, n => (db, n)
  | a :: rest, db, n =>
    match syncAddress db a.address (fetch a.address) now with
    | .ok db2 => syncAllGo fetch now rest db2 n
    | .error _ => syncAllGo fetch now rest db (n + 1)

/-- `BitcoinService.SyncAllAddresses`: sync every tracked address sequentially;
report success when no address failed, otherwise an aggregate error carrying
only the failure count. -/
def syncAllAddresses (db : DB) (fetch : String → Except String (List RawEvent))
    (now : Nat) : DB × Except String Unit :=
  let res := syncAllGo fetch now (getAllAddresses db) db 0
  if res.2 = 0 then (res.1, .ok ())
  else (res.1, .error ("sync completed with " ++ toString res.2 ++ " errors"))

/-- `BitcoinService.GetBalance`: guard that the address is tracked, then return
the recomputed balance. -/
def serviceGetBalance (db : DB) (address : String) : Except String Balance :=
  match getAddress db address with
  | none => .error ("address not being tracked: " ++ address)
  | some _ => .ok (calculateBalance db address)

/-- `BitcoinService.GetTransactions`: guard that the address is tracked,
default a non-positive limit to 50, clamp the limit to 100, then list. -/
def serviceGetTransactions (db : DB) (address : String) (limit offset : Int) :
    Except String (List Transaction) :=
  match getAddress db address with
  | none => .error ("address not being tracked: " ++ address)
  | some _ =>
    let l1 := if limit ≤ 0 then 50 else limit
    let l2 := if l1 > 100 then 100 else l1
    .ok (getTransactionsByAddress db address l2 offset)

/-- `BitcoinService.GetAllAddresses`: every tracked address paired with its
balance; when the balance computation for one address fails, a zero balance is
substituted and the address is still returned.  The balance computation is the
`balOf` argument (the repository is an interface in the source). -/
def serviceGetAllAddresses (db : DB) (balOf : String → Except String Balance) :
    Except String (List (Address × Balance)) :=
  .ok ((getAllAddresses db).map (fun a =>
    (a, match balOf a.address with
        | .ok b => b
        | .error _ =>
          { address := a.address, confirmedBalance := 0, unconfirmedBalance := 0,
            totalBalance := 0, balanceBTC := 0 })))

/-- The state-mutating operations of the system, for reachability statements. -/
inductive Op where
  | save (tx : Transaction)
  | sync (address : String) (fetch : Except String (List RawEvent)) (now : Nat)
  | syncAll (fetch : String → Except String (List RawEvent)) (now : Nat)
  | remove (address : String)
  | add (a : Address)
  | markSynced (address : String) (now : Nat)

/-- Apply one operation to the database; a failed operation leaves the state
untouched. -/
def applyOp (db : DB) : Op → DB
  | .save tx => saveTransaction db tx
  | .sync address fetch now => applySync db address fetch now
  | .syncAll fetch now => (syncAllAddresses db fetch now).1
  | .remove address =>
    match removeAddress db address with
    | .ok db2 => db2
    | .error _ => db
  | .add a => if tracked db a.address then db else { db with addresses := db.addresses ++ [a] }
  | .markSynced address now => updateLastSynced db address now

/-- The state reached from the empty database by a sequence of operations. -/
def reach (ops : List Op) : DB :=
  ops.foldl applyOp { addresses := [], transactions := [] }

/-- The `(hash, address)` uniqueness invariant of the `transactions` relation. -/
def UniqKeys (l : List Transaction) : Prop :=
  l.Pairwise (fun a b => ¬(a.hash = b.hash ∧ a.address = b.address))

/-! ### Basic lemmas about the store operations -/

theorem keyMatches_eq_true (r : Transaction) (h a : String) :
    keyMatches r h a = true ↔ r.hash = h ∧ r.address = a := by
  simp [keyMatches]

theorem transactionExists_eq_true (db : DB) (h a : String) :
    transactionExists db h a = true ↔
      ∃ r ∈ db.transactions, r.hash = h ∧ r.address = a := by
  simp [transactionExists, List.any_eq_true, keyMatches]

theorem saveTransaction_addresses (db : DB) (tx : Transaction) :
    (saveTransaction db tx).addresses = db.addresses := rfl

theorem syncStep_addresses (address : String) (db : DB) (tx : Transaction) :
    (syncStep address db tx).addresses = db.addresses := by
  unfold syncStep; split <;> rfl

theorem syncTransactions_addresses (address : String) (txs : List Transaction) (db : DB) :
    (syncTransactions address db txs).addresses = db.addresses := by
  induction txs generalizing db with
  | nil => rfl
  | cons t ts ih =>
    show (syncTransactions address (syncStep address db t) ts).addresses = db.addresses
    rw [ih, syncStep_addresses]

theorem updateLastSynced_transactions (db : DB) (address : String) (t : Nat) :
    (updateLastSynced db address t).transactions = db.transactions := rfl

theorem tracked_updateLastSynced (db : DB) (address b : String) (t : Nat) :
    tracked (updateLastSynced db address t) b = tracked db b := by
  unfold tracked updateLastSynced
  rw [List.any_map]
  congr 1
  funext a
  by_cases h : a.address == address <;> simp [Function.comp, h]

theorem getAddress_of_tracked (db : DB) (address : String)
    (h : tracked db address = true) : ∃ a, getAddress db address = some a := by
  unfold tracked at h
  rcases List.any_eq_true.mp h with ⟨x, hx, hpx⟩
  have hs : (db.addresses.find? (fun a => a.address == address)).isSome :=
    List.find?_isSome.mpr ⟨x, hx, hpx⟩
  rcases Option.isSome_iff_exists.mp hs with ⟨a, ha⟩
  exact ⟨a, ha⟩

theorem getAddress_none (db : DB) (address : String)
    (h : tracked db address = false) : getAddress db address = none := by
  unfold tracked at h
  unfold getAddress
  rw [List.find?_eq_none]
  intro x hx
  rw [List.any_eq_false] at h
  exact h x hx

theorem syncAddress_ok (db : DB) (address : String) (events : List RawEvent) (now : Nat)
    (h : tracked db address = true) :
    syncAddress db address (.ok events) now
      = .ok (updateLastSynced
              (syncTransactions address db (events.map (classifyEvent address)))
              address now) := by
  obtain ⟨a, ha⟩ := getAddress_of_tracked db address h
  unfold syncAddress
  rw [ha]

theorem syncAddress_err (db : DB) (address e : String) (now : Nat) :
    ∃ msg, syncAddress db address (.error e) now = .error msg := by
  unfold syncAddress
  cases getAddress db address <;> exact ⟨_, rfl⟩

theorem applySync_ok (db : DB) (address : String) (events : List RawEvent) (now : Nat)
    (h : tracked db address = true) :
    applySync db address (.ok events) now
      = updateLastSynced
          (syncTransactions address db (events.map (classifyEvent address)))
          address now := by
  unfold applySync
  rw [syncAddress_ok db address events now h]

theorem applySync_err (db : DB) (address e : String) (now : Nat) :
    applySync db address (.error e) now = db := by
  obtain ⟨msg, hm⟩ := syncAddress_err db address e now
  unfold applySync
  rw [hm]

theorem transactionExists_save_self (db : DB) (tx : Transaction) :
    transactionExists (saveTransaction db tx) tx.hash tx.address = true := by
  rw [transactionExists_eq_true]
  exact ⟨tx, by simp [saveTransaction], rfl, rfl⟩

theorem transactionExists_save_mono (db : DB) (tx : Transaction) (h a : String)
    (hx : transactionExists db h a = true) :
    transactionExists (saveTransaction db tx) h a = true := by
  rw [transactionExists_eq_true] at hx ⊢
  obtain ⟨r, hr, hrh, hra⟩ := hx
  by_cases hk : r.hash = tx.hash ∧ r.address = tx.address
  · refine ⟨tx, by simp [saveTransaction], ?_, ?_⟩
    · rw [← hk.1]; exact hrh
    · rw [← hk.2]; exact hra
  · refine ⟨r, ?_, hrh, hra⟩
    simp only [saveTransaction, List.mem_append, List.mem_filter]
    left
    refine ⟨hr, ?_⟩
    simp only [keyMatches, Bool.not_eq_true', Bool.and_eq_false_iff, beq_eq_false_iff_ne,
      ne_eq]
    by_cases h1 : r.hash = tx.hash
    · right; intro h2; exact hk ⟨h1, h2⟩
    · left; exact h1

/-! ### Lemmas about the save loop of SyncAddress -/

theorem transactionExists_syncTransactions_mono (address : String)
    (txs : List Transaction) (db : DB) (h a : String)
    (hx : transactionExists db h a = true) :
    transactionExists (syncTransactions address db txs) h a = true := by
  induction txs generalizing db with
  | nil => exact hx
  | cons t ts ih =>
    show transactionExists (syncTransactions address (syncStep address db t) ts) h a = true
    apply ih
    unfold syncStep
    split
    · exact hx
    · exact transactionExists_save_mono db t h a hx

theorem transactionExists_syncTransactions_all (address : String)
    (txs : List Transaction) (db : DB) :
    (∀ t ∈ txs, t.address = address) →
    ∀ t ∈ txs, transactionExists (syncTransactions address db txs) t.hash address = true := by
  induction txs generalizing db with
  | nil => intro _ t ht; simp at ht
  | cons t ts ih =>
    intro htx x hx
    rcases List.mem_cons.mp hx with rfl | hmem
    · show transactionExists (syncTransactions address (syncStep address db x) ts)
        x.hash address = true
      apply transactionExists_syncTransactions_mono
      by_cases he : transactionExists db x.hash address = true
      · have h0 : syncStep address db x = db := by
          unfold syncStep; rw [if_pos he]
        rw [h0]; exact he
      · have h1 : syncStep address db x = saveTransaction db x := by
          unfold syncStep; rw [if_neg he]
        have hxa : x.address = address := htx x (by simp)
        rw [h1]
        have hs := transactionExists_save_self db x
        rwa [hxa] at hs
    · show transactionExists (syncTransactions address (syncStep address db t) ts)
        x.hash address = true
      exact ih (syncStep address db t)
        (fun y hy => htx y (List.mem_cons_of_mem _ hy)) x hmem

theorem syncTransactions_skip (address : String) (txs : List Transaction) (db : DB) :
    (∀ t ∈ txs, transactionExists db t.hash address = true) →
    syncTransactions address db txs = db := by
  induction txs generalizing db with
  | nil => intro _; rfl
  | cons t ts ih =>
    intro h
    have h0 : syncStep address db t = db := by
      unfold syncStep; rw [if_pos (h t (by simp))]
    show syncTransactions address (syncStep address db t) ts = db
    rw [h0]
    exact ih db (fun y hy => h y (by simp [hy]))

theorem syncTransactions_append (address : String) (txs : List Transaction) (db : DB) :
    (∀ t ∈ txs, t.address = address) →
    ∃ rest, (syncTransactions address db txs).transactions = db.transactions ++ rest := by
  induction txs generalizing db with
  | nil => intro _; exact ⟨[], by simp [syncTransactions]⟩
  | cons t ts ih =>
    intro htx
    show ∃ rest, (syncTransactions address (syncStep address db t) ts).transactions
      = db.transactions ++ rest
    by_cases he : transactionExists db t.hash address = true
    · have h0 : syncStep address db t = db := by
        unfold syncStep; rw [if_pos he]
      rw [h0]
      exact ih db (fun y hy => htx y (by simp [hy]))
    · have h1 : syncStep address db t = saveTransaction db t := by
        unfold syncStep; rw [if_neg he]
      have he2 : transactionExists db t.hash address = false := by
        revert he; cases transactionExists db t.hash address <;> simp
      have hta : t.address = address := htx t (by simp)
      have hsave : (saveTransaction db t).transactions = db.transactions ++ [t] := by
        show db.transactions.filter (fun r => !(keyMatches r t.hash t.address)) ++ [t]
          = db.transactions ++ [t]
        congr 1
        apply List.filter_eq_self.mpr
        intro r hr
        unfold transactionExists at he2
        rw [List.any_eq_false] at he2
        have hk := he2 r hr
        rw [← hta] at hk
        revert hk
        cases keyMatches r t.hash t.address <;> simp
      obtain ⟨rest, hrest⟩ := ih (saveTransaction db t)
        (fun y hy => htx y (by simp [hy]))
      refine ⟨t :: rest, ?_⟩
      rw [h1, hrest, hsave, List.append_assoc, List.singleton_append]

/-! ### Concrete fixtures -/

/-- A tracked address row for the address "A". -/
def addrA : Address := { address := "A", label := "", createdAt := 0, lastSynced := none }

/-- A stored unconfirmed record for `(h1, A)`. -/
def c1Stored : Transaction :=
  { hash := "h1", address := "A", amount := 500000000, confirmations := 0,
    blockHeight := 0, timestamp := 10, txType := "received" }

/-- A database tracking "A" with the unconfirmed record already stored. -/
def c1DB : DB := { addresses := [addrA], transactions := [c1Stored] }

/-- A re-fetched event for the same `(h1, A)` pair, now carrying a block
association, so it classifies as confirmed (confirmation count 6). -/
def c1Event : RawEvent :=
  { blockId := 800000, hash := "h1", time := 10, balanceChange := 500000000 }

/-- A database tracking "A" with no stored records. -/
def scenDB : DB := { addresses := [addrA], transactions := [] }

/-- The three-event upstream response of the specification scenario. -/
def scenEvents : List RawEvent :=
  [ { blockId := 800000, hash := "h1", time := 1, balanceChange := 500000000 },
    { blockId := 800010, hash := "h2", time := 2, balanceChange := -200000000 },
    { blockId := 0, hash := "h3", time := 3, balanceChange := 100000000 } ]

/-- The database after running the scenario sync. -/
def scenResult : DB := applySync scenDB "A" (.ok scenEvents) 77

/-- A second tracked address row. -/
def addrB : Address := { address := "B", label := "b", createdAt := 5, lastSynced := none }

/-- A stored record belonging to address "B". -/
def txB : Transaction :=
  { hash := "h9", address := "B", amount := 7, confirmations := 6,
    blockHeight := 1, timestamp := 3, txType := "received" }

/-- A database tracking "A" and "B", each with one stored record. -/
def c4DB : DB := { addresses := [addrA, addrB], transactions := [c1Stored, txB] }

/-- The database left after removing "A" from `c4DB`. -/
def c4Removed : DB :=
  match removeAddress c4DB "A" with
  | .ok d => d
  | .error _ => c4DB

theorem tracked_applySync (db : DB) (address b : String)
    (fetch : Except String (List RawEvent)) (now : Nat) :
    tracked (applySync db address fetch now) b = tracked db b := by
  cases fetch with
  | error e => rw [applySync_err]
  | ok events =>
    by_cases h : tracked db address = true
    · rw [applySync_ok db address events now h, tracked_updateLastSynced]
      unfold tracked
      rw [syncTransactions_addresses]
    · have h2 : tracked db address = false := by
        revert h; cases tracked db address <;> simp
      have hn := getAddress_none db address h2
      unfold applySync syncAddress
      rw [hn]

/-! ### Claim C1 -/

/-- C1 counterexample: the address "A" already stores `(h1, A)` with
confirmation count 0; the adapter returns the same event reclassified as
confirmed (count 6); after `SyncAddress` the stored record still carries
confirmation count 0, not the newly fetched 6 — refuting the claim that the
store always reflects the latest classification seen after `syncOne`. -/
theorem c1_sync_does_not_overwrite_counterexample :
    (classifyEvent "A" c1Event).confirmations = 6
    ∧ (applySync c1DB "A" (.ok [c1Event]) 99).transactions = [c1Stored]
    ∧ c1Stored.confirmations = 0
    ∧ ¬((applySync c1DB "A" (.ok [c1Event]) 99).transactions.map
          Transaction.confirmations = [6]) := by decide

/-- C1 (amended): for a tracked address, `SyncAddress` never rewrites an
already stored record — the stored rows survive unchanged and only genuinely
new records are appended, so an event whose `(hash, address)` pair already
exists leaves the stored confirmation count untouched; the overwrite the spec
allows happens only on a direct `SaveTransaction` upsert, which does replace
any stored record with the same dedup key. -/
theorem c1_syncOne_keeps_stored_classification (db : DB) (address : String)
    (events : List RawEvent) (now : Nat) (tx : Transaction)
    (htr : tracked db address = true) :
    (∃ rest, (applySync db address (.ok events) now).transactions
        = db.transactions ++ rest)
    ∧ tx ∈ (saveTransaction db tx).transactions
    ∧ ∀ r ∈ (saveTransaction db tx).transactions,
        r.hash = tx.hash → r.address = tx.address → r = tx := by
  refine ⟨?_, ?_, ?_⟩
  · rw [applySync_ok db address events now htr, updateLastSynced_transactions]
    apply syncTransactions_append
    intro t ht
    rcases List.mem_map.mp ht with ⟨e, _, rfl⟩
    rfl
  · simp [saveTransaction]
  · intro r hr h1 h2
    rcases List.mem_append.mp hr with hf | hl
    · exfalso
      have hflt := (List.mem_filter.mp hf).2
      have hkm : keyMatches r tx.hash tx.address = true :=
        (keyMatches_eq_true r tx.hash tx.address).mpr ⟨h1, h2⟩
      rw [hkm] at hflt
      simp at hflt
    · simpa using hl

/-- Witness for the amended C1 at the concrete counterexample input. -/
theorem c1_syncOne_keeps_stored_classification_witness :
    tracked c1DB "A" = true
    ∧ ((∃ rest, (applySync c1DB "A" (.ok [c1Event]) 99).transactions
          = c1DB.transactions ++ rest)
        ∧ classifyEvent "A" c1Event ∈ (saveTransaction c1DB (classifyEvent "A" c1Event)).transactions
        ∧ ∀ r ∈ (saveTransaction c1DB (classifyEvent "A" c1Event)).transactions,
            r.hash = (classifyEvent "A" c1Event).hash →
            r.address = (classifyEvent "A" c1Event).address →
            r = classifyEvent "A" c1Event) :=
  ⟨by decide,
   c1_syncOne_keeps_stored_classification c1DB "A" [c1Event] 99
     (classifyEvent "A" c1Event) (by decide)⟩

/-! ### Claim C2 -/

/-- C2: for a tracked address, running `SyncAddress` twice against the same
adapter response leaves the `transactions` relation exactly as it was after the
first run — no duplicate rows and the same record count. -/
theorem c2_syncOne_idempotent (db : DB) (address : String) (events : List RawEvent)
    (now1 now2 : Nat) (htr : tracked db address = true) :
    (applySync (applySync db address (.ok events) now1) address
        (.ok events) now2).transactions
      = (applySync db address (.ok events) now1).transactions := by
  have htx : ∀ t ∈ events.map (classifyEvent address), t.address = address := by
    intro t ht
    rcases List.mem_map.mp ht with ⟨e, _, rfl⟩
    rfl
  have htr1 : tracked (applySync db address (.ok events) now1) address = true := by
    rw [tracked_applySync]; exact htr
  rw [applySync_ok _ address events now2 htr1, updateLastSynced_transactions]
  have hskip : syncTransactions address (applySync db address (.ok events) now1)
      (events.map (classifyEvent address)) = applySync db address (.ok events) now1 := by
    apply syncTransactions_skip
    intro t ht
    have hx := transactionExists_syncTransactions_all address
      (events.map (classifyEvent address)) db htx t ht
    rw [applySync_ok db address events now1 htr]
    exact hx
  rw [hskip]

/-- Witness for C2 at the three-event scenario input. -/
theorem c2_syncOne_idempotent_witness :
    tracked scenDB "A" = true
    ∧ (applySync (applySync scenDB "A" (.ok scenEvents) 77) "A"
          (.ok scenEvents) 88).transactions
        = (applySync scenDB "A" (.ok scenEvents) 77).transactions :=
  ⟨by decide, c2_syncOne_idempotent scenDB "A" scenEvents 77 88 (by decide)⟩

/-! ### Claim C3 -/

theorem sum_filter_map (p : Transaction → Bool) (f : Transaction → Int)
    (l : List Transaction) :
    ((l.filter p).map f).sum = (l.map (fun x => if p x = true then f x else 0)).sum := by
  induction l with
  | nil => rfl
  | cons x xs ih =>
    by_cases h : p x = true
    · simp [List.filter_cons, h, ih]
    · simp [List.filter_cons, h, ih]

/-- C3: for a tracked address, the balance query succeeds with the recomputed
balance: confirmed is the sum over the full record set of amounts of this
address's records with confirmation count at least 1, unconfirmed the sum of
those with confirmation count 0, total their composition, and the result is
invariant under any reordering of the stored records. -/
theorem c3_balance_correct (db : DB) (address : String) (perm : List Transaction)
    (htr : tracked db address = true) (hperm : db.transactions.Perm perm) :
    serviceGetBalance db address = .ok (calculateBalance db address)
    ∧ (calculateBalance db address).confirmedBalance
        = (db.transactions.map (fun t =>
            if t.address = address ∧ 1 ≤ t.confirmations then t.amount else 0)).sum
    ∧ (calculateBalance db address).unconfirmedBalance
        = (db.transactions.map (fun t =>
            if t.address = address ∧ t.confirmations = 0 then t.amount else 0)).sum
    ∧ (calculateBalance db address).totalBalance
        = (calculateBalance db address).confirmedBalance
            + (calculateBalance db address).unconfirmedBalance
    ∧ calculateBalance { db with transactions := perm } address
        = calculateBalance db address := by
  have hc : confirmedSum { db with transactions := perm } address
      = confirmedSum db address := by
    unfold confirmedSum
    exact (((hperm.filter _).map _).sum_eq).symm
  have hu : unconfirmedSum { db with transactions := perm } address
      = unconfirmedSum db address := by
    unfold unconfirmedSum
    exact (((hperm.filter _).map _).sum_eq).symm
  refine ⟨?_, ?_, ?_, rfl, ?_⟩
  · obtain ⟨a, ha⟩ := getAddress_of_tracked db address htr
    unfold serviceGetBalance
    rw [ha]
  · show confirmedSum db address = _
    unfold confirmedSum
    rw [sum_filter_map]
    apply congrArg List.sum
    apply List.map_congr_left
    intro t _
    by_cases h1 : t.address = address <;> by_cases h2 : 1 ≤ t.confirmations <;>
      simp [h1, h2]
  · show unconfirmedSum db address = _
    unfold unconfirmedSum
    rw [sum_filter_map]
    apply congrArg List.sum
    apply List.map_congr_left
    intro t _
    by_cases h1 : t.address = address <;> by_cases h2 : t.confirmations = 0 <;>
      simp [h1, h2]
  · unfold calculateBalance
    rw [hc, hu]

/-- Witness for C3: the scenario database with its record list reversed. -/
theorem c3_balance_correct_witness :
    tracked scenResult "A" = true
    ∧ scenResult.transactions.Perm scenResult.transactions.reverse
    ∧ (serviceGetBalance scenResult "A" = .ok (calculateBalance scenResult "A")
        ∧ (calculateBalance scenResult "A").confirmedBalance
            = (scenResult.transactions.map (fun t =>
                if t.address = "A" ∧ 1 ≤ t.confirmations then t.amount else 0)).sum
        ∧ (calculateBalance scenResult "A").unconfirmedBalance
            = (scenResult.transactions.map (fun t =>
                if t.address = "A" ∧ t.confirmations = 0 then t.amount else 0)).sum
        ∧ (calculateBalance scenResult "A").totalBalance
            = (calculateBalance scenResult "A").confirmedBalance
                + (calculateBalance scenResult "A").unconfirmedBalance
        ∧ calculateBalance { scenResult with
              transactions := scenResult.transactions.reverse } "A"
            = calculateBalance scenResult "A") :=
  ⟨by decide, by decide,
   c3_balance_correct scenResult "A" scenResult.transactions.reverse
     (by decide) (by decide)⟩

/-! ### Claim C4 -/

/-- C4: the code contradicts the declared schema.  Removing the untracked "Z"
does fail with a not-found error, and after removing "A" the balance query
does fail the tracked guard — but because the program never enables SQLite
foreign-key enforcement the declared `ON DELETE CASCADE` is inert: RemoveAddress
deletes only the address row, "A"'s ledger record survives the removal, and
the listing still returns it instead of the empty sequence the claim (and the
schema's declared intent) requires. -/
theorem c4_cascade_not_enforced :
    removeAddress c4DB "A" = .ok c4Removed
    ∧ c4Removed.transactions = [c1Stored, txB]
    ∧ getTransactionsByAddress c4Removed "A" 50 0 = [c1Stored]
    ∧ ¬(getTransactionsByAddress c4Removed "A" 50 0 = [])
    ∧ serviceGetBalance c4Removed "A"
        = .error ("address not being tracked: " ++ "A")
    ∧ removeAddress c4DB "Z" = .error ("address not found: " ++ "Z") :=
  ⟨rfl, by decide, by decide, by decide, rfl, rfl⟩

/-! ### Claim C5 -/

theorem uniqKeys_save (db : DB) (tx : Transaction) (h : UniqKeys db.transactions) :
    UniqKeys (saveTransaction db tx).transactions := by
  show UniqKeys
    (db.transactions.filter (fun r => !(keyMatches r tx.hash tx.address)) ++ [tx])
  unfold UniqKeys at h ⊢
  rw [List.pairwise_append]
  refine ⟨h.filter _, List.pairwise_singleton _ _, ?_⟩
  intro a ha b hb
  rw [List.mem_singleton] at hb
  subst hb
  have h2 := (List.mem_filter.mp ha).2
  intro hk
  rw [(keyMatches_eq_true a b.hash b.address).mpr hk] at h2
  simp at h2

theorem uniqKeys_syncStep (address : String) (db : DB) (tx : Transaction)
    (h : UniqKeys db.transactions) : UniqKeys (syncStep address db tx).transactions := by
  unfold syncStep
  split
  · exact h
  · exact uniqKeys_save db tx h

theorem uniqKeys_syncTransactions (address : String) (txs : List Transaction)
    (db : DB) (h : UniqKeys db.transactions) :
    UniqKeys (syncTransactions address db txs).transactions := by
  induction txs generalizing db with
  | nil => exact h
  | cons t ts ih =>
    show UniqKeys (syncTransactions address (syncStep address db t) ts).transactions
    exact ih _ (uniqKeys_syncStep address db t h)

theorem uniqKeys_applySync (db : DB) (address : String)
    (fetch : Except String (List RawEvent)) (now : Nat)
    (h : UniqKeys db.transactions) :
    UniqKeys (applySync db address fetch now).transactions := by
  cases fetch with
  | error e => rw [applySync_err]; exact h
  | ok events =>
    by_cases htr : tracked db address = true
    · rw [applySync_ok db address events now htr, updateLastSynced_transactions]
      exact uniqKeys_syncTransactions address _ db h
    · have h2 : tracked db address = false := by
        revert htr
        cases tracked db address <;> simp
      unfold applySync syncAddress
      rw [getAddress_none db address h2]
      exact h

theorem uniqKeys_syncAllGo (fetch : String → Except String (List RawEvent))
    (now : Nat) (l : List Address) (db : DB) (n : Nat)
    (h : UniqKeys db.transactions) :
    UniqKeys (syncAllGo fetch now l db n).1.transactions := by
  induction l generalizing db n with
  | nil => exact h
  | cons a rest ih =>
    simp only [syncAllGo]
    cases hs : syncAddress db a.address (fetch a.address) now with
    | ok db2 =>
      apply ih
      have hap : applySync db a.address (fetch a.address) now = db2 := by
        unfold applySync
        rw [hs]
      rw [← hap]
      exact uniqKeys_applySync db a.address (fetch a.address) now h
    | error e => exact ih db (n + 1) h

theorem uniqKeys_applyOp (db : DB) (op : Op) (h : UniqKeys db.transactions) :
    UniqKeys (applyOp db op).transactions := by
  cases op with
  | save tx => exact uniqKeys_save db tx h
  | sync address fetch now => exact uniqKeys_applySync db address fetch now h
  | syncAll fetch now =>
    show UniqKeys (syncAllAddresses db fetch now).1.transactions
    simp only [syncAllAddresses]
    split
    · exact uniqKeys_syncAllGo fetch now (getAllAddresses db) db 0 h
    · exact uniqKeys_syncAllGo fetch now (getAllAddresses db) db 0 h
  | remove address =>
    show UniqKeys (match removeAddress db address with
      | .ok db2 => db2
      | .error _ => db).transactions
    by_cases htr : tracked db address = true
    · have hrw : removeAddress db address = .ok
          { db with addresses := db.addresses.filter (fun a => !(a.address == address)) } := by
        unfold removeAddress
        rw [if_pos htr]
      rw [hrw]
      exact h
    · have hrw : removeAddress db address = .error ("address not found: " ++ address) := by
        unfold removeAddress
        rw [if_neg htr]
      rw [hrw]
      exact h
  | add a =>
    show UniqKeys (if tracked db a.address = true then db
      else { db with addresses := db.addresses ++ [a] }).transactions
    split
    · exact h
    · exact h
  | markSynced address now => exact h

/-- C5: in every state reachable from the empty database by any sequence of
operations — saves, single or bulk syncs (so also repeated ingestion of the
same event, and any interleaving of concurrent syncs serialized by the store's
uniqueness constraint), removals, registrations and watermark updates — no two
stored records share the same `(hash, address)` dedup key. -/
theorem c5_unique_dedup_key (ops : List Op) : UniqKeys (reach ops).transactions := by
  have gen : ∀ (l : List Op) (db : DB), UniqKeys db.transactions →
      UniqKeys (l.foldl applyOp db).transactions := by
    intro l
    induction l with
    | nil => intro db h; exact h
    | cons op rest ih =>
      intro db h
      exact ih (applyOp db op) (uniqKeys_applyOp db op h)
  exact gen ops _ List.Pairwise.nil

/-! ### Claim C6 -/

/-- C6: for a tracked address, a failed adapter fetch leaves the database (and
so the `last_synced` watermark) unchanged, while a successful sync always
advances the watermark of that address to the sync time, even when the fetched
event list inserts no new record. -/
theorem c6_watermark (db : DB) (address : String) (now : Nat)
    (events : List RawEvent) (e : String)
    (htr : tracked db address = true) :
    applySync db address (.error e) now = db
    ∧ ∃ db2, syncAddress db address (.ok events) now = .ok db2
        ∧ ∀ a ∈ db2.addresses, a.address = address → a.lastSynced = some now := by
  refine ⟨applySync_err db address e now,
    _, syncAddress_ok db address events now htr, ?_⟩
  intro a ha hadr
  rcases List.mem_map.mp ha with ⟨b, hb, rfl⟩
  by_cases hc : (b.address == address) = true
  · rw [if_pos hc]
  · rw [if_neg hc] at hadr ⊢
    exact absurd (beq_iff_eq.mpr hadr) hc

/-- Witness for C6: a failing fetch and an empty successful fetch for "A". -/
theorem c6_watermark_witness :
    tracked scenDB "A" = true
    ∧ (applySync scenDB "A" (.error "boom") 5 = scenDB
        ∧ ∃ db2, syncAddress scenDB "A" (.ok []) 5 = .ok db2
            ∧ ∀ a ∈ db2.addresses, a.address = "A" → a.lastSynced = some 5) :=
  ⟨by decide, c6_watermark scenDB "A" 5 [] "boom" (by decide)⟩

/-! ### Claim C7 -/

theorem syncAllGo_cons_ok (fetch : String → Except String (List RawEvent))
    (now : Nat) (a : Address) (rest : List Address) (db db2 : DB) (n : Nat)
    (hs : syncAddress db a.address (fetch a.address) now = .ok db2) :
    syncAllGo fetch now (a :: rest) db n = syncAllGo fetch now rest db2 n := by
  simp only [syncAllGo]
  rw [hs]

theorem syncAllGo_cons_err (fetch : String → Except String (List RawEvent))
    (now : Nat) (a : Address) (rest : List Address) (db : DB) (n : Nat) (msg : String)
    (hs : syncAddress db a.address (fetch a.address) now = .error msg) :
    syncAllGo fetch now (a :: rest) db n = syncAllGo fetch now rest db (n + 1) := by
  simp only [syncAllGo]
  rw [hs]

theorem tracked_syncResult (db : DB) (address b : String)
    (events : List RawEvent) (now : Nat) :
    tracked (updateLastSynced (syncTransactions address db
        (events.map (classifyEvent address))) address now) b = tracked db b := by
  rw [tracked_updateLastSynced]
  unfold tracked
  rw [syncTransactions_addresses]

theorem syncAddress_ok_inv (db : DB) (address : String)
    (f : Except String (List RawEvent)) (now : Nat) (db2 : DB)
    (hs : syncAddress db address f now = .ok db2) :
    ∃ events, f = .ok events ∧
      db2 = updateLastSynced (syncTransactions address db
        (events.map (classifyEvent address))) address now := by
  unfold syncAddress at hs
  cases hga : getAddress db address with
  | none =>
    rw [hga] at hs
    exact Except.noConfusion hs
  | some a =>
    rw [hga] at hs
    cases f with
    | error e => exact Except.noConfusion hs
    | ok events =>
      injection hs with h2
      exact ⟨events, rfl, h2.symm⟩

theorem tracked_syncOk (db db2 : DB) (t b : String)
    (f : Except String (List RawEvent)) (now : Nat)
    (hs : syncAddress db t f now = .ok db2) :
    tracked db2 b = tracked db b := by
  obtain ⟨events, _, hdb2⟩ := syncAddress_ok_inv db t f now db2 hs
  subst hdb2
  exact tracked_syncResult db t b events now

theorem syncAllGo_count (fetch : String → Except String (List RawEvent))
    (now : Nat) (l : List Address) (db : DB) (n : Nat) :
    (∀ a ∈ l, tracked db a.address = true) →
    (syncAllGo fetch now l db n).2
      = n + (l.filter (fun a => !(fetchOk (fetch a.address)))).length := by
  induction l generalizing db n with
  | nil => intro _; simp [syncAllGo]
  | cons a rest ih =>
    intro htr
    have hta : tracked db a.address = true := htr a (by simp)
    cases hf : fetch a.address with
    | error e =>
      obtain ⟨msg, hmsg⟩ := syncAddress_err db a.address e now
      rw [syncAllGo_cons_err fetch now a rest db n msg (by rw [hf]; exact hmsg)]
      rw [ih db (n + 1) (fun x hx => htr x (List.mem_cons_of_mem _ hx))]
      simp [List.filter_cons, hf, fetchOk]
      omega
    | ok events =>
      have hok : syncAddress db a.address (fetch a.address) now
          = .ok (updateLastSynced (syncTransactions a.address db
              (events.map (classifyEvent a.address))) a.address now) := by
        rw [hf]
        exact syncAddress_ok db a.address events now hta
      rw [syncAllGo_cons_ok fetch now a rest db _ n hok]
      have htr2 : ∀ x ∈ rest, tracked (updateLastSynced (syncTransactions a.address db
          (events.map (classifyEvent a.address))) a.address now) x.address = true := by
        intro x hx
        rw [tracked_syncResult]
        exact htr x (List.mem_cons_of_mem _ hx)
      rw [ih _ n htr2]
      simp [List.filter_cons, hf, fetchOk]

theorem wset_syncAllGo_preserve (fetch : String → Except String (List RawEvent))
    (now : Nat) (l : List Address) (db : DB) (n : Nat) (t : String)
    (h : ∀ x ∈ db.addresses, x.address = t → x.lastSynced = some now) :
    ∀ x ∈ (syncAllGo fetch now l db n).1.addresses, x.address = t →
      x.lastSynced = some now := by
  induction l generalizing db n with
  | nil => exact h
  | cons a rest ih =>
    cases hs : syncAddress db a.address (fetch a.address) now with
    | ok db2 =>
      rw [syncAllGo_cons_ok fetch now a rest db db2 n hs]
      apply ih
      obtain ⟨events, _, hdb2⟩ :=
        syncAddress_ok_inv db a.address (fetch a.address) now db2 hs
      subst hdb2
      intro x hx hxt
      rcases List.mem_map.mp hx with ⟨y, hy, rfl⟩
      rw [syncTransactions_addresses] at hy
      by_cases hc : (y.address == a.address) = true
      · rw [if_pos hc]
      · rw [if_neg hc] at hxt ⊢
        exact h y hy hxt
    | error e =>
      rw [syncAllGo_cons_err fetch now a rest db n e hs]
      exact ih db (n + 1) h

theorem wset_syncAllGo (fetch : String → Except String (List RawEvent))
    (now : Nat) (l : List Address) (db : DB) (n : Nat) (t : String) :
    (∀ a ∈ l, tracked db a.address = true) →
    (∃ a ∈ l, a.address = t ∧ fetchOk (fetch a.address) = true) →
    ∀ x ∈ (syncAllGo fetch now l db n).1.addresses, x.address = t →
      x.lastSynced = some now := by
  induction l generalizing db n with
  | nil =>
    intro _ hex
    rcases hex with ⟨a, ha, _⟩
    simp at ha
  | cons a rest ih =>
    intro htr hex
    have hta : tracked db a.address = true := htr a (by simp)
    rcases hex with ⟨w, hw, hwt, hwok⟩
    rcases List.mem_cons.mp hw with rfl | hwrest
    · cases hf : fetch w.address with
      | error e =>
        rw [hf] at hwok
        simp [fetchOk] at hwok
      | ok events =>
        have hok : syncAddress db w.address (fetch w.address) now
            = .ok (updateLastSynced (syncTransactions w.address db
                (events.map (classifyEvent w.address))) w.address now) := by
          rw [hf]
          exact syncAddress_ok db w.address events now hta
        rw [syncAllGo_cons_ok fetch now w rest db _ n hok]
        apply wset_syncAllGo_preserve
        rw [← hwt]
        intro x hx hxw
        rcases List.mem_map.mp hx with ⟨y, _, rfl⟩
        by_cases hc : (y.address == w.address) = true
        · rw [if_pos hc]
        · rw [if_neg hc] at hxw ⊢
          exact absurd (beq_iff_eq.mpr hxw) hc
    · cases hs : syncAddress db a.address (fetch a.address) now with
      | ok db2 =>
        rw [syncAllGo_cons_ok fetch now a rest db db2 n hs]
        have htr2 : ∀ x ∈ rest, tracked db2 x.address = true := by
          intro x hx
          rw [tracked_syncOk db db2 a.address x.address (fetch a.address) now hs]
          exact htr x (List.mem_cons_of_mem _ hx)
        exact ih db2 n htr2 ⟨w, hwrest, hwt, hwok⟩
      | error e =>
        rw [syncAllGo_cons_err fetch now a rest db n e hs]
        exact ih db (n + 1) (fun x hx => htr x (List.mem_cons_of_mem _ hx))
          ⟨w, hwrest, hwt, hwok⟩

/-- C7: `SyncAllAddresses` processes every tracked address sequentially and one
address's failure never stops the rest — every address whose fetch succeeds
still gets its watermark advanced; the call reports success exactly when no
address failed, and otherwise fails with the aggregate message carrying only
the count of failed addresses. -/
theorem c7_syncAll_aggregates (db : DB)
    (fetch : String → Except String (List RawEvent)) (now : Nat)
    (htr : ∀ a ∈ getAllAddresses db, tracked db a.address = true) :
    ((syncAllAddresses db fetch now).2 = .ok () ↔
      ∀ a ∈ getAllAddresses db, fetchOk (fetch a.address) = true)
    ∧ ((syncAllAddresses db fetch now).2 = .ok ()
        ∨ (syncAllAddresses db fetch now).2 = .error ("sync completed with "
            ++ toString ((getAllAddresses db).filter
                (fun a => !(fetchOk (fetch a.address)))).length ++ " errors"))
    ∧ ∀ a ∈ getAllAddresses db, fetchOk (fetch a.address) = true →
        ∀ x ∈ (syncAllAddresses db fetch now).1.addresses,
          x.address = a.address → x.lastSynced = some now := by
  have hres2 : (syncAllGo fetch now (getAllAddresses db) db 0).2
      = ((getAllAddresses db).filter (fun a => !(fetchOk (fetch a.address)))).length :=
    (syncAllGo_count fetch now (getAllAddresses db) db 0 htr).trans
      (Nat.zero_add _)
  have hM : syncAllAddresses db fetch now
      = if (syncAllGo fetch now (getAllAddresses db) db 0).2 = 0
        then ((syncAllGo fetch now (getAllAddresses db) db 0).1, Except.ok ())
        else ((syncAllGo fetch now (getAllAddresses db) db 0).1,
          Except.error ("sync completed with "
            ++ toString (syncAllGo fetch now (getAllAddresses db) db 0).2
            ++ " errors")) := rfl
  refine ⟨?_, ?_, ?_⟩
  · rw [hM]
    by_cases hz : (syncAllGo fetch now (getAllAddresses db) db 0).2 = 0
    · rw [if_pos hz]
      have hk : ((getAllAddresses db).filter
          (fun a => !(fetchOk (fetch a.address)))).length = 0 := by
        rw [← hres2]
        exact hz
      have hnil := List.length_eq_zero.mp hk
      constructor
      · intro _ a ha
        have hmem := List.filter_eq_nil_iff.mp hnil a ha
        revert hmem
        cases fetchOk (fetch a.address) <;> simp
      · intro _
        rfl
    · rw [if_neg hz]
      constructor
      · intro h
        exact Except.noConfusion h
      · intro hall
        exfalso
        apply hz
        rw [hres2, List.length_eq_zero]
        apply List.filter_eq_nil_iff.mpr
        intro a ha
        simp [hall a ha]
  · rw [hM]
    by_cases hz : (syncAllGo fetch now (getAllAddresses db) db 0).2 = 0
    · left
      rw [if_pos hz]
    · right
      rw [if_neg hz]
      show Except.error _ = Except.error _
      rw [hres2]
  · intro a ha hok x hx hxa
    have h1 : (syncAllAddresses db fetch now).1
        = (syncAllGo fetch now (getAllAddresses db) db 0).1 := by
      rw [hM]
      split <;> rfl
    rw [h1] at hx
    exact wset_syncAllGo fetch now (getAllAddresses db) db 0 a.address htr
      ⟨a, ha, rfl, hok⟩ x hx hxa

/-- A fetch oracle failing exactly on address "A". -/
def c7Fetch (address : String) : Except String (List RawEvent) :=
  if address = "A" then .error "boom" else .ok scenEvents

/-- Witness for C7: two tracked addresses where "A"'s fetch fails: the call
reports one error and "B" still gets its watermark advanced. -/
theorem c7_syncAll_aggregates_witness :
    (∀ a ∈ getAllAddresses c4DB, tracked c4DB a.address = true)
    ∧ (((syncAllAddresses c4DB c7Fetch 9).2 = .ok () ↔
          ∀ a ∈ getAllAddresses c4DB, fetchOk (c7Fetch a.address) = true)
        ∧ ((syncAllAddresses c4DB c7Fetch 9).2 = .ok ()
            ∨ (syncAllAddresses c4DB c7Fetch 9).2 = .error ("sync completed with "
                ++ toString ((getAllAddresses c4DB).filter
                    (fun a => !(fetchOk (c7Fetch a.address)))).length ++ " errors"))
        ∧ ∀ a ∈ getAllAddresses c4DB, fetchOk (c7Fetch a.address) = true →
            ∀ x ∈ (syncAllAddresses c4DB c7Fetch 9).1.addresses,
              x.address = a.address → x.lastSynced = some 9) :=
  ⟨by decide, c7_syncAll_aggregates c4DB c7Fetch 9 (by decide)⟩

/-! ### Claim C8 -/

/-- C8: the upstream classification marks an event as sent exactly when its
balance delta is negative (received otherwise) and as unconfirmed (count 0)
exactly when it has no block association, any nonzero block id giving the
fixed confirmed sentinel 6; and on the specified three-event scenario the sync
stores 3 records, h1 and h2 confirmed, h3 unconfirmed, with confirmed balance
300000000, unconfirmed 100000000 and total 400000000. -/
theorem c8_classification_and_scenario :
    (∀ (address : String) (e : RawEvent),
        ((classifyEvent address e).txType = "sent" ↔ e.balanceChange < 0)
        ∧ (classifyEvent address e).txType
            = (if e.balanceChange < 0 then "sent" else "received")
        ∧ ((classifyEvent address e).confirmations = 0 ↔ e.blockId = 0)
        ∧ (classifyEvent address e).confirmations
            = (if e.blockId = 0 then 0 else 6))
    ∧ syncAddress scenDB "A" (.ok scenEvents) 77 = .ok scenResult
    ∧ scenResult.transactions.length = 3
    ∧ (scenResult.transactions.map fun t => (t.hash, t.confirmations))
        = [("h1", 6), ("h2", 6), ("h3", 0)]
    ∧ (calculateBalance scenResult "A").confirmedBalance = 300000000
    ∧ (calculateBalance scenResult "A").unconfirmedBalance = 100000000
    ∧ (calculateBalance scenResult "A").totalBalance = 400000000 := by
  refine ⟨?_, rfl, by decide, by decide, by decide, by decide, by decide⟩
  intro address e
  refine ⟨?_, rfl, ?_, rfl⟩
  · show (if e.balanceChange < 0 then "sent" else "received") = "sent"
      ↔ e.balanceChange < 0
    by_cases h : e.balanceChange < 0 <;> simp [h]
  · show (if e.blockId = 0 then (0:Int) else 6) = 0 ↔ e.blockId = 0
    by_cases h : e.blockId = 0 <;> simp [h]

/-- Witness for C8: the classification applied at a concrete event and the
scenario total. -/
theorem c8_classification_and_scenario_witness :
    ((classifyEvent "A" c1Event).txType = "sent" ↔ c1Event.balanceChange < 0)
    ∧ (calculateBalance scenResult "A").totalBalance = 400000000 :=
  ⟨(c8_classification_and_scenario.1 "A" c1Event).1,
   c8_classification_and_scenario.2.2.2.2.2.2⟩

/-! ### Claim C9 -/

theorem serviceGetTransactions_ok (db : DB) (address : String) (limit offset : Int)
    (htr : tracked db address = true) :
    serviceGetTransactions db address limit offset
      = .ok (getTransactionsByAddress db address
          (if limit ≤ 0 then 50 else if limit > 100 then 100 else limit) offset) := by
  obtain ⟨a, ha⟩ := getAddress_of_tracked db address htr
  unfold serviceGetTransactions
  rw [ha]
  show Except.ok (getTransactionsByAddress db address
      (if (if limit ≤ 0 then (50:Int) else limit) > 100 then (100:Int)
        else if limit ≤ 0 then (50:Int) else limit) offset) = _
  have harg : (if (if limit ≤ 0 then (50:Int) else limit) > 100 then (100:Int)
      else if limit ≤ 0 then (50:Int) else limit)
      = (if limit ≤ 0 then (50:Int) else if limit > 100 then 100 else limit) := by
    by_cases h1 : limit ≤ 0
    · simp [h1]
    · simp [h1]
  rw [harg]

/-- C9: for a tracked address, the transaction listing is a window of the
timestamp-descending ordering of exactly that address's stored records: a
non-positive limit defaults to 50, a limit above 100 is clamped to 100, a
negative offset behaves as offset 0, and the returned sequence is itself
sorted by timestamp descending. -/
theorem c9_listing (db : DB) (address : String) (limit offset : Int)
    (htr : tracked db address = true) :
    ∃ l, l.Perm (db.transactions.filter (fun t => t.address == address))
      ∧ List.Sorted tsDesc l
      ∧ serviceGetTransactions db address limit offset
          = .ok ((l.drop (max offset 0).toNat).take
              (if limit ≤ 0 then 50 else if limit > 100 then 100 else limit).toNat)
      ∧ List.Sorted tsDesc ((l.drop (max offset 0).toNat).take
              (if limit ≤ 0 then 50 else if limit > 100 then 100 else limit).toNat) := by
  refine ⟨List.insertionSort tsDesc
      (db.transactions.filter (fun t => t.address == address)),
    List.perm_insertionSort tsDesc _, List.sorted_insertionSort tsDesc _, ?_, ?_⟩
  · rw [serviceGetTransactions_ok db address limit offset htr]
    congr 1
    unfold getTransactionsByAddress
    rw [if_neg]
    by_cases h1 : limit ≤ 0
    · simp [h1]
    · by_cases h2 : limit > 100
      · simp [h1, h2]
      · simp [h1, h2]
        omega
  · exact List.Pairwise.sublist
      ((List.take_sublist _ _).trans (List.drop_sublist _ _))
      (List.sorted_insertionSort tsDesc _)

/-- Witness for C9: the scenario store listed with a non-positive limit and a
negative offset. -/
theorem c9_listing_witness :
    tracked scenResult "A" = true
    ∧ ∃ l, l.Perm (scenResult.transactions.filter (fun t => t.address == "A"))
        ∧ List.Sorted tsDesc l
        ∧ serviceGetTransactions scenResult "A" 0 (-2)
            = .ok ((l.drop (max (-2) 0).toNat).take
                (if (0:Int) ≤ 0 then (50:Int) else if (0:Int) > 100 then 100 else 0).toNat)
        ∧ List.Sorted tsDesc ((l.drop (max (-2) 0).toNat).take
                (if (0:Int) ≤ 0 then (50:Int) else if (0:Int) > 100 then 100 else 0).toNat) :=
  ⟨by decide, c9_listing scenResult "A" 0 (-2) (by decide)⟩

/-! ### Claim C10 -/

/-- C10: listing all addresses never fails because one address's balance
computation fails: every tracked address is still returned, a failing
address's balance is replaced by the all-zero balance (confirmed, unconfirmed,
total and BTC value all 0), and a successful balance is passed through. -/
theorem c10_zero_balance_substitution (db : DB)
    (balOf : String → Except String Balance) :
    ∃ out, serviceGetAllAddresses db balOf = .ok out
      ∧ out.length = (getAllAddresses db).length
      ∧ (∀ p ∈ out, p.1 ∈ getAllAddresses db)
      ∧ ∀ p ∈ out,
          (∀ e, balOf p.1.address = .error e →
            p.2 = { address := p.1.address, confirmedBalance := 0,
                    unconfirmedBalance := 0, totalBalance := 0, balanceBTC := 0 })
          ∧ (∀ b, balOf p.1.address = .ok b → p.2 = b) := by
  refine ⟨(getAllAddresses db).map (fun a =>
      (a, match balOf a.address with
          | .ok b => b
          | .error _ =>
            { address := a.address, confirmedBalance := 0, unconfirmedBalance := 0,
              totalBalance := 0, balanceBTC := 0 })), rfl,
    List.length_map _ _, ?_, ?_⟩
  · intro p hp
    rcases List.mem_map.mp hp with ⟨a, ha, rfl⟩
    exact ha
  · intro p hp
    rcases List.mem_map.mp hp with ⟨a, ha, rfl⟩
    constructor
    · intro e he
      have he2 : balOf a.address = Except.error e := he
      show (match balOf a.address with
        | .ok b => b
        | .error _ =>
          { address := a.address, confirmedBalance := 0, unconfirmedBalance := 0,
            totalBalance := 0, balanceBTC := 0 }) = _
      rw [he2]
    · intro b hb
      have hb2 : balOf a.address = Except.ok b := hb
      show (match balOf a.address with
        | .ok b => b
        | .error _ =>
          { address := a.address, confirmedBalance := 0, unconfirmedBalance := 0,
            totalBalance := 0, balanceBTC := 0 }) = b
      rw [hb2]

/-- A balance oracle failing exactly on address "A". -/
def c10Bal (address : String) : Except String Balance :=
  if address = "A" then .error "db broke"
  else .ok { address := address, confirmedBalance := 7, unconfirmedBalance := 0,
             totalBalance := 7, balanceBTC := 0 }

/-- Witness for C10: a two-address store whose balance oracle fails on "A". -/
theorem c10_zero_balance_substitution_witness :
    ∃ out, serviceGetAllAddresses c4DB c10Bal = .ok out
      ∧ out.length = (getAllAddresses c4DB).length
      ∧ (∀ p ∈ out, p.1 ∈ getAllAddresses c4DB)
      ∧ ∀ p ∈ out,
          (∀ e, c10Bal p.1.address = .error e →
            p.2 = { address := p.1.address, confirmedBalance := 0,
                    unconfirmedBalance := 0, totalBalance := 0, balanceBTC := 0 })
          ∧ (∀ b, c10Bal p.1.address = .ok b → p.2 = b) :=
  c10_zero_balance_substitution c4DB c10Bal

end BitcoinTracker
